import Mathlib

set_option maxHeartbeats 1000000
set_option maxRecDepth 4000

/-!
Shallow embedding of the three API route handlers of the drama-dl-frontend
repository:

* `src/app/api/download/route.ts` — the Streamer (manifest parsing, bounded
  retry, variant/segment resolution, segment streaming, the `GET` handler);
* `src/app/api/video/route.ts` — the Extractor (manifest parsing, stream-list
  building, the height-descending sort);
* `src/app/api/search/route.ts` — the Resolver (primary API search mapping and
  the Google-scrape fallback).

Text is modelled as `List Char` (JS strings are sequences of UTF-16 units; all
operations used by the routes are per-character).  JS numbers arising from
`parseInt` on digit runs are modelled as `Nat`.  Network effects are modelled by
explicit oracle functions passed to the embedded handlers: an oracle maps a URL
(and, for retried fetches, an attempt index) to `none` (transport error or
non-success status) or `some body`.
-/

/-! ## JS string primitives -/

/-- The whitespace class used by JS `String.prototype.trim` (ASCII part plus
NBSP and BOM; the routes only ever meet ASCII whitespace). -/
def jsWsChar (c : Char) : Bool :=
  c == ' ' || c == '\t' || c == '\n' || c == '\r' || c == '\x0B' || c == '\x0C' ||
    c.toNat == 0xA0 || c.toNat == 0xFEFF

/-- JS `s.trim()`. -/
def jsTrim (cs : List Char) : List Char :=
  ((cs.dropWhile jsWsChar).reverse.dropWhile jsWsChar).reverse

/-- JS `s.split("\n")` (keeps empty pieces; `"".split("\n")` is `[""]`). -/
def splitOnNl : List Char → List (List Char)
  | [] => [[]]
  | c :: rest =>
    if c == '\n' then [] :: splitOnNl rest
    else
      match splitOnNl rest with
      | [] => [[c]]
      | l :: ls => (c :: l) :: ls

/-- JS `parseInt` on a non-empty run of decimal digits. -/
def digitsToNat (ds : List Char) : Nat :=
  ds.foldl (fun a c => 10 * a + (c.toNat - 48)) 0

/-- JS `hay.includes(needle)`. -/
def containsSeq (needle : List Char) : List Char → Bool
  | [] => needle.isEmpty
  | c :: rest => needle.isPrefixOf (c :: rest) || containsSeq needle rest

/-- Index of the last occurrence of `c`, as in JS `lastIndexOf`. -/
def lastIndexOfCh (c : Char) : List Char → Option Nat
  | [] => none
  | x :: xs =>
    match lastIndexOfCh c xs with
    | some i => some (i + 1)
    | none => if x == c then some 0 else none

/-- JS `url.substring(0, url.lastIndexOf("/"))` (empty when there is no
slash, since `substring(0, -1)` clamps to the empty string). -/
def dirOf (s : List Char) : List Char :=
  match lastIndexOfCh '/' s with
  | some i => s.take i
  | none => []

/-! ## Regex scanners used by the manifest parsers

The two route files use three regexes on a manifest line:
`/RESOLUTION=\d+x(\d+)/` (download route), `/RESOLUTION=(\d+)x(\d+)/` (video
route) and `/NAME="([^"]+)"/` (both).  `String.prototype.match` without the `g`
flag returns the leftmost match; the scanners below try every start position
from the left, which is exactly the engine's behaviour for these patterns
(greedy `\d+`/`[^"]+` runs are maximal and admit no backtracking). -/

/-- Match of `RESOLUTION=\d+x(\d+)` anchored at the start of `cs`, returning
the capture group (download route's regex). -/
def resAt1 (cs : List Char) : Option Nat :=
  if ("RESOLUTION=".data).isPrefixOf cs then
    let rest := cs.drop 11
    let d1 := rest.takeWhile Char.isDigit
    if d1.isEmpty then none
    else
      match rest.drop d1.length with
      | 'x' :: r2 =>
        let d2 := r2.takeWhile Char.isDigit
        if d2.isEmpty then none else some (digitsToNat d2)
      | _ => none
  else none

/-- Leftmost match of `RESOLUTION=\d+x(\d+)` in `cs`. -/
def findRes1 : List Char → Option Nat
  | [] => none
  | c :: cs =>
    match resAt1 (c :: cs) with
    | some h => some h
    | none => findRes1 cs

/-- Match of `RESOLUTION=(\d+)x(\d+)` anchored at the start of `cs`, returning
both capture groups (video route's regex). -/
def resAt2 (cs : List Char) : Option (Nat × Nat) :=
  if ("RESOLUTION=".data).isPrefixOf cs then
    let rest := cs.drop 11
    let d1 := rest.takeWhile Char.isDigit
    if d1.isEmpty then none
    else
      match rest.drop d1.length with
      | 'x' :: r2 =>
        let d2 := r2.takeWhile Char.isDigit
        if d2.isEmpty then none else some (digitsToNat d1, digitsToNat d2)
      | _ => none
  else none

/-- Leftmost match of `RESOLUTION=(\d+)x(\d+)` in `cs`. -/
def findRes2 : List Char → Option (Nat × Nat)
  | [] => none
  | c :: cs =>
    match resAt2 (c :: cs) with
    | some wh => some wh
    | none => findRes2 cs

/-- Match of `NAME="([^"]+)"` anchored at the start of `cs`. -/
def nameAt (cs : List Char) : Option (List Char) :=
  if ("NAME=\"".data).isPrefixOf cs then
    let rest := cs.drop 6
    let grp := rest.takeWhile (fun c => !(c == '"'))
    if grp.isEmpty then none
    else
      match rest.drop grp.length with
      | '"' :: _ => some grp
      | _ => none
  else none

/-- Leftmost match of `NAME="([^"]+)"` in `cs` (identical regex literal in
both route files). -/
def findName : List Char → Option (List Char)
  | [] => none
  | c :: cs =>
    match nameAt (c :: cs) with
    | some n => some n
    | none => findName cs

/-- `String(h)` for the JS value `height` (a number or `null`): `null` prints
as `"null"`, numbers in decimal. -/
def heightStr : Option Nat → List Char
  | none => "null".data
  | some h => Nat.toDigits 10 h

/-- The trimmed line list a parser iterates over:
`m3u8Text.trim().split("\n")`. -/
def linesOf (text : List Char) : List (List Char) :=
  splitOnNl (jsTrim text)

/-- The next non-comment line after the current one
(`for (j = i+1; ...) if (!lines[j].trim().startsWith("#")) ...`), trimmed;
`[]` when every remaining line is a comment (the JS variable stays `""`). -/
def nextNonComment : List (List Char) → List Char
  | [] => []
  | l :: rest =>
    let t := jsTrim l
    if ("#".data).isPrefixOf t then nextNonComment rest else t

/-! ## The Streamer's manifest parser (`src/app/api/download/route.ts`) -/

namespace Download

structure Variant where
  name : List Char
  url : List Char
  height : Option Nat
deriving DecidableEq, Repr

/-- One step of `parseM3u8Variants`' outer loop: the loop body at line `l`
only inspects `l` and the lines after it. -/
def parseAux (baseUrl : List Char) : List (List Char) → List Variant
  | [] => []
  | l :: rest =>
    let line := jsTrim l
    if ("#EXT-X-STREAM-INF".data).isPrefixOf line then
      let height := findRes1 line
      let name :=
        match findName line with
        | some n => n
        | none =>
          match height with
          | some h => if h == 0 then "auto".data else Nat.toDigits 10 h
          | none => "auto".data
      let v0 := nextNonComment rest
      let v1 :=
        if !v0.isEmpty && !(("http".data).isPrefixOf v0) then baseUrl ++ '/' :: v0 else v0
      if v1.isEmpty then parseAux baseUrl rest
      else { name := name, url := v1, height := height } :: parseAux baseUrl rest
    else parseAux baseUrl rest

/-- `parseM3u8Variants` of `src/app/api/download/route.ts` (lines 11–37). -/
def parseM3u8Variants (m3u8Text baseUrl : List Char) : List Variant :=
  parseAux baseUrl (linesOf m3u8Text)

end Download

/-! ## The Extractor's manifest parser (`src/app/api/video/route.ts`) -/

namespace Video

structure Variant where
  name : List Char
  url : List Char
  width : Option Nat
  height : Option Nat
deriving DecidableEq, Repr

/-- One step of the video route's `parseM3u8Variants` outer loop. -/
def parseAux (baseUrl : List Char) : List (List Char) → List Variant
  | [] => []
  | l :: rest =>
    let line := jsTrim l
    if ("#EXT-X-STREAM-INF".data).isPrefixOf line then
      let r := findRes2 line
      let width := r.map (·.1)
      let height := r.map (·.2)
      let name :=
        match findName line with
        | some n => n
        | none =>
          match height with
          | some h => if h == 0 then "auto".data else Nat.toDigits 10 h
          | none => "auto".data
      let v0 := nextNonComment rest
      let v1 :=
        if !v0.isEmpty && !(("http".data).isPrefixOf v0) then baseUrl ++ '/' :: v0 else v0
      if v1.isEmpty then parseAux baseUrl rest
      else { name := name, url := v1, width := width, height := height } :: parseAux baseUrl rest
    else parseAux baseUrl rest

/-- `parseM3u8Variants` of `src/app/api/video/route.ts` (lines 28–58). -/
def parseM3u8Variants (m3u8Text baseUrl : List Char) : List Variant :=
  parseAux baseUrl (linesOf m3u8Text)

end Video

/-- Projection of a video-route variant onto the fields the download route's
parser produces. -/
def vidToDl (v : Video.Variant) : Download.Variant :=
  { name := v.name, url := v.url, height := v.height }

/-! ## Counting `#EXT-X-STREAM-INF` lines (for claim C2) -/

/-- The number of lines (in the parser's trimmed view) that start with
`#EXT-X-STREAM-INF`. -/
def countSegInf (lines : List (List Char)) : Nat :=
  (lines.filter (fun l => ("#EXT-X-STREAM-INF".data).isPrefixOf (jsTrim l))).length

/-- The number of `#EXT-X-STREAM-INF` lines whose next non-comment line is
non-empty after trimming — exactly the entries the parser keeps. -/
def countSegInfWithUrl : List (List Char) → Nat
  | [] => 0
  | l :: rest =>
    (if ("#EXT-X-STREAM-INF".data).isPrefixOf (jsTrim l) && !(nextNonComment rest).isEmpty
      then 1 else 0) + countSegInfWithUrl rest

/-! ## Agreement of the two manifest parsers -/

theorem resAt_agree (cs : List Char) : resAt1 cs = (resAt2 cs).map Prod.snd := by
  unfold resAt1 resAt2
  dsimp only
  repeat' split <;> try rfl

theorem findRes_agree : ∀ cs, findRes1 cs = (findRes2 cs).map Prod.snd := by
  intro cs
  induction cs with
  | nil => rfl
  | cons c cs ih =>
    simp only [findRes1, findRes2]
    have h := resAt_agree (c :: cs)
    cases h2 : resAt2 (c :: cs) with
    | none =>
      rw [h2] at h
      simp only [Option.map_none'] at h
      simpa [h] using ih
    | some wh =>
      rw [h2] at h
      simp [h]

theorem parseAux_agree :
    ∀ (lines : List (List Char)) (base : List Char),
      (Video.parseAux base lines).map vidToDl = Download.parseAux base lines := by
  intro lines
  induction lines with
  | nil => intro base; rfl
  | cons l rest ih =>
    intro base
    simp only [Video.parseAux, Download.parseAux]
    by_cases hp : (("#EXT-X-STREAM-INF".data).isPrefixOf (jsTrim l)) = true
    · simp only [hp, if_true, findRes_agree]
      cases hr : findRes2 (jsTrim l) with
      | none =>
        simp only [hr, Option.map_none']
        repeat' split <;> simp [vidToDl, ih base]
      | some wh =>
        simp only [hr, Option.map_some']
        repeat' split <;> simp [vidToDl, ih base]
    · simp only [Bool.not_eq_true] at hp
      simp [hp, ih base]

theorem parsers_agree (text base : List Char) :
    (Video.parseM3u8Variants text base).map vidToDl = Download.parseM3u8Variants text base :=
  parseAux_agree (linesOf text) base

/-! ## Variant counting and URL absoluteness (claim C2) -/

theorem parseAux_length (base : List Char) :
    ∀ lines, (Download.parseAux base lines).length = countSegInfWithUrl lines := by
  intro lines
  induction lines with
  | nil => rfl
  | cons l rest ih =>
    simp only [Download.parseAux, countSegInfWithUrl]
    by_cases hp : (("#EXT-X-STREAM-INF".data).isPrefixOf (jsTrim l)) = true
    · simp only [hp, if_true, Bool.true_and]
      by_cases h0 : (nextNonComment rest).isEmpty = true
      · have : nextNonComment rest = [] := by
          cases hnn : nextNonComment rest with
          | nil => rfl
          | cons a b => rw [hnn] at h0; simp at h0
        simp [this, ih]
      · simp only [h0, Bool.not_false, if_true]
        by_cases hh : (("http".data).isPrefixOf (nextNonComment rest)) = true
        · simp only [hh, Bool.not_true, Bool.and_false, Bool.false_eq_true, if_false]
          rw [if_neg (by simpa using h0)]
          simp [ih]
          omega
        · simp only [Bool.not_eq_true] at hh
          simp only [hh, Bool.not_false, Bool.and_true, Bool.not_eq_eq_eq_not, if_true]
          rw [if_neg (by simp)]
          simp [ih]
          omega
    · simp only [Bool.not_eq_true] at hp
      simp [hp, ih]

theorem parseAux_http (base : List Char) (hb : ("http".data).isPrefixOf base = true) :
    ∀ lines, ∀ v ∈ Download.parseAux base lines, ("http".data).isPrefixOf v.url = true := by
  intro lines
  induction lines with
  | nil => intro v hv; simp [Download.parseAux] at hv
  | cons l rest ih =>
    intro v hv
    simp only [Download.parseAux] at hv
    by_cases hp : (("#EXT-X-STREAM-INF".data).isPrefixOf (jsTrim l)) = true
    · rw [if_pos hp] at hv
      by_cases hj : (!(nextNonComment rest).isEmpty && !(("http".data).isPrefixOf (nextNonComment rest))) = true
      · rw [if_pos hj] at hv
        rw [if_neg (by simp)] at hv
        rcases List.mem_cons.mp hv with h | h
        · subst h
          have h1 : ("http".data) <+: base := by
            simpa [List.isPrefixOf_iff_prefix] using hb
          have h2 : base <+: base ++ '/' :: nextNonComment rest := List.prefix_append _ _
          simpa [List.isPrefixOf_iff_prefix] using h1.trans h2
        · exact ih v h
      · rw [if_neg hj] at hv
        by_cases h0 : (nextNonComment rest).isEmpty = true
        · have : nextNonComment rest = [] := by
            cases hnn : nextNonComment rest with
            | nil => rfl
            | cons a b => rw [hnn] at h0; simp at h0
          rw [this] at hv
          simp only [List.isEmpty_nil, if_true] at hv
          exact ih v hv
        · have hh : ("http".data).isPrefixOf (nextNonComment rest) = true := by
            rcases Bool.eq_false_or_eq_true (("http".data).isPrefixOf (nextNonComment rest)) with hq | hq
            · exact hq
            · exfalso
              apply hj
              simp only [Bool.and_eq_true, Bool.not_eq_true']
              exact ⟨by simpa using h0, hq⟩
          rw [if_neg (by simpa using h0)] at hv
          rcases List.mem_cons.mp hv with h | h
          · subst h; simpa using hh
          · exact ih v h
    · simp only [Bool.not_eq_true] at hp
      rw [if_neg (by simp [hp])] at hv
      exact ih v hv

/-- Claim C2 as stated: for every manifest text and base URL, the parser
yields exactly as many variants as there are `#EXT-X-STREAM-INF` lines.  It is
false: a `#EXT-X-STREAM-INF` line with no following non-comment line (here the
trailing line of the manifest) is dropped, so one STREAM-INF line yields zero
variants. -/
theorem claim_C2_counterexample :
    ¬((Download.parseM3u8Variants ("#EXT-X-STREAM-INF:RESOLUTION=1x2").data
        ("http://h").data).length =
      countSegInf (linesOf ("#EXT-X-STREAM-INF:RESOLUTION=1x2").data)) := by
  decide

/-- Claim C2, amended: for every manifest text and base URL, both parsers
yield exactly one variant per `#EXT-X-STREAM-INF` line whose next non-comment
line is non-empty after trimming (a STREAM-INF entry with no following URL
line is dropped); and whenever the base URL is absolute (starts with `http`),
every yielded variant URL is absolute, relative URLs having been joined
against the manifest's own base path. -/
theorem claim_C2 (text base : List Char) :
    (Download.parseM3u8Variants text base).length = countSegInfWithUrl (linesOf text) ∧
    (Video.parseM3u8Variants text base).length = countSegInfWithUrl (linesOf text) ∧
    (("http".data).isPrefixOf base = true →
      ∀ v ∈ Download.parseM3u8Variants text base, ("http".data).isPrefixOf v.url = true) := by
  refine ⟨parseAux_length base (linesOf text), ?_, ?_⟩
  · have h := congrArg List.length (parsers_agree text base)
    simp only [List.length_map] at h
    rw [h]
    exact parseAux_length base (linesOf text)
  · intro hb v hv
    exact parseAux_http base hb (linesOf text) v hv

/-- A concrete master manifest used to instantiate several theorems. -/
def exManifest : List Char :=
  ("#EXTM3U\n#EXT-X-STREAM-INF:RESOLUTION=1280x720,NAME=\"720p\"\nseg.m3u8").data

theorem claim_C2_witness :
    (Download.parseM3u8Variants exManifest ("http://h").data).length =
      countSegInfWithUrl (linesOf exManifest) ∧
    ("http".data).isPrefixOf
      (Download.Variant.mk ("720p").data ("http://h/seg.m3u8").data (some 720)).url = true := by
  refine ⟨(claim_C2 exManifest ("http://h").data).1, ?_⟩
  exact (claim_C2 exManifest ("http://h").data).2.2 (by decide) _ (by decide)

/-! ## Variant selection agreement (claim C3) -/

theorem find?_mem_of_exists {α : Type} (p : α → Bool) :
    ∀ (l : List α) (x : α), x ∈ l → p x = true → ∃ w, l.find? p = some w ∧ p w = true := by
  intro l
  induction l with
  | nil => intro x hx; simp at hx
  | cons y ys ih =>
    intro x hx hpx
    by_cases hy : p y = true
    · exact ⟨y, by simp [List.find?, hy], hy⟩
    · rcases List.mem_cons.mp hx with h | h
      · subst h; exact absurd hpx hy
      · rcases ih x h hpx with ⟨w, hw1, hw2⟩
        refine ⟨w, ?_, hw2⟩
        simp only [List.find?]
        rw [Bool.not_eq_true] at hy
        rw [hy]
        exact hw1

/-- Claim C3: the Extractor's and the Streamer's manifest parsers produce the
same variant sequence (same name, URL and height entrywise), and for every
variant the Extractor surfaces, the Streamer's name-or-height matcher
(`v.name === quality || String(v.height) === quality` with `quality` set to
that variant's name, as in `resolveVariantAndSegments`) succeeds on the
re-parsed list and selects a variant matching that label. -/
theorem claim_C3 (text base : List Char) :
    ((Video.parseM3u8Variants text base).map vidToDl = Download.parseM3u8Variants text base) ∧
    (∀ v ∈ Video.parseM3u8Variants text base,
      ∃ w, (Download.parseM3u8Variants text base).find?
            (fun w => w.name == v.name || heightStr w.height == v.name) = some w ∧
          (w.name = v.name ∨ heightStr w.height = v.name)) := by
  refine ⟨parsers_agree text base, ?_⟩
  intro v hv
  have hmem : vidToDl v ∈ Download.parseM3u8Variants text base := by
    rw [← parsers_agree text base]
    exact List.mem_map_of_mem vidToDl hv
  have hp : (fun w => w.name == v.name || heightStr w.height == v.name) (vidToDl v) = true := by
    simp [vidToDl]
  rcases find?_mem_of_exists (fun w => w.name == v.name || heightStr w.height == v.name)
    _ _ hmem hp with ⟨w, hw1, hw2⟩
  refine ⟨w, hw1, ?_⟩
  simpa using hw2

theorem claim_C3_witness :
    ∃ w, (Download.parseM3u8Variants exManifest ("http://h").data).find?
          (fun w => w.name == ("720p").data || heightStr w.height == ("720p").data) = some w ∧
        (w.name = ("720p").data ∨ heightStr w.height = ("720p").data) :=
  (claim_C3 exManifest ("http://h").data).2
    (Video.Variant.mk ("720p").data ("http://h/seg.m3u8").data (some 1280) (some 720))
    (by decide)

/-! ## Bounded retry: `fetchOk` (`src/app/api/download/route.ts` lines 39–55)

`fetchOk(url, headers, retries)` attempts `fetch` up to `retries` times,
returning the first response with `resp.ok`, logging failures, and sleeping
`1000 * (i + 1)` ms between consecutive tries.  An attempt oracle
`attempt : Nat → Option α` gives attempt `i`'s outcome (`some` = an `ok`
response with parsed body, `none` = transport error or non-success status). -/

/-- Per-call record of one `fetchOk` invocation: the attempt cap it was given,
how many attempts it made, and the backoff delays (ms) it slept. -/
structure FetchTrace where
  cap : Nat
  attempts : Nat
  delays : List Nat
deriving DecidableEq, Repr

/-- The `for (let i = 0; i < retries; i++)` loop of `fetchOk`, with `rem`
counting the remaining iterations (`rem = retries - i`). -/
def fetchOkGo {α : Type} (attempt : Nat → Option α) (retries : Nat) :
    Nat → Nat → Option α × List Nat × Nat
  | 0, _ => (none, [], 0)
  | rem + 1, i =>
    match attempt i with
    | some r => (some r, [], 1)
    | none =>
      let rest := fetchOkGo attempt retries rem (i + 1)
      (rest.1, if i < retries - 1 then 1000 * (i + 1) :: rest.2.1 else rest.2.1, rest.2.2 + 1)

/-- `fetchOk` together with its trace (result, delays slept, attempts made). -/
def fetchOkT {α : Type} (attempt : Nat → Option α) (retries : Nat) : Option α × FetchTrace :=
  let r := fetchOkGo attempt retries retries 0
  (r.1, { cap := retries, attempts := r.2.2, delays := r.2.1 })

/-! ## The Streamer's resolution chain (`src/app/api/download/route.ts`) -/

/-- JS `\w` (word character). -/
def isWordChar (c : Char) : Bool := c.isAlphanum || c == '_'

/-- Title sanitization in `resolveVariantAndSegments` (lines 72–75):
`title.replace(/[^\w\s-]/g, "").substring(0, 60).trim()`. -/
def sanitizeTitle (t : List Char) : List Char :=
  jsTrim ((t.filter (fun c => isWordChar c || jsWsChar c || c == '-')).take 60)

/-- The fields of the platform metadata JSON the Streamer reads:
`meta.title` (`[]` models both an absent and an empty title — both falsy) and
`meta.qualities?.auto?.[0]?.url`. -/
structure MetaData where
  title : List Char
  autoUrl : Option (List Char)
deriving DecidableEq, Repr

/-- Segment-playlist parsing, identical in `resolveVariantAndSegments`
(lines 102–106) and `streamFromVariantUrl` (lines 119–123): split on newlines,
trim, drop empty and comment lines, resolve relative URLs against the variant
playlist's own directory. -/
def parseSegments (base text : List Char) : List (List Char) :=
  (((splitOnNl text).map jsTrim).filter
    (fun l => !l.isEmpty && !(("#".data).isPrefixOf l))).map
    (fun l => if ("http".data).isPrefixOf l then l else base ++ '/' :: l)

/-- `resolveVariantAndSegments` (lines 57–109): metadata (2 attempts) →
master manifest (5 attempts) → variant match by name or height → variant
playlist (3 attempts) → segment list.  `metaAttempt` is keyed by the video id
(the metadata URL is a function of it), `textAttempt` by the fetched URL.
Returns the result together with the trace of every `fetchOk` call made. -/
def resolveVariantAndSegments
    (metaAttempt : List Char → Nat → Option MetaData)
    (textAttempt : List Char → Nat → Option (List Char))
    (videoId quality : List Char) :
    Option (List (List Char) × List Char) × List FetchTrace :=
  let m := fetchOkT (metaAttempt videoId) 2
  match m.1 with
  | none => (none, [m.2])
  | some meta =>
    let title := sanitizeTitle (if meta.title.isEmpty then "video".data else meta.title)
    match meta.autoUrl with
    | none => (none, [m.2])
    | some m3u8Url =>
      let r2 := fetchOkT (textAttempt m3u8Url) 5
      match r2.1 with
      | none => (none, [m.2, r2.2])
      | some m3u8Text =>
        if !(containsSeq ("#EXTM3U".data) m3u8Text) then (none, [m.2, r2.2])
        else
          let baseUrl := dirOf m3u8Url
          let variants := Download.parseM3u8Variants m3u8Text baseUrl
          if variants.isEmpty then (none, [m.2, r2.2])
          else
            let mtch := variants.find?
              (fun v => v.name == quality || heightStr v.height == quality)
            let variantUrl :=
              match mtch with
              | some v => v.url
              | none => (variants.getLastD (Download.Variant.mk [] [] none)).url
            let r3 := fetchOkT (textAttempt variantUrl) 3
            match r3.1 with
            | none => (none, [m.2, r2.2, r3.2])
            | some varText =>
              let varBase := dirOf variantUrl
              let segments := parseSegments varBase varText
              (if segments.isEmpty then none else some (segments, title), [m.2, r2.2, r3.2])

/-- `streamFromVariantUrl` (lines 111–126): fetch the pre-resolved variant
playlist (3 attempts) and parse its segment list. -/
def streamFromVariantUrl (textAttempt : List Char → Nat → Option (List Char))
    (variantUrl : List Char) : Option (List (List Char)) × FetchTrace :=
  let r := fetchOkT (textAttempt variantUrl) 3
  match r.1 with
  | none => (none, r.2)
  | some text =>
    let base := dirOf variantUrl
    let segments := parseSegments base text
    (if segments.isEmpty then none else some segments, r.2)

/-! ## The streaming loop and the download `GET` handler -/

/-- The segment-streaming loop (lines 188–212): fetch each segment URL in
order; a failed fetch or non-success status (`segFetch u = none`) is logged
and skipped; a successful response's body chunks are enqueued as read. -/
def streamSegments (segFetch : List Char → Option (List (List Nat))) :
    List (List Char) → List (List Nat)
  | [] => []
  | u :: rest =>
    match segFetch u with
    | none => streamSegments segFetch rest
    | some chunks => chunks ++ streamSegments segFetch rest

/-- Body of the single 502 response site (lines 171–180): both an `error` and
a `tip` field. -/
structure ErrBody where
  error : List Char
  tip : List Char
deriving DecidableEq, Repr

def errCdn : ErrBody :=
  { error := "Could not resolve video stream. The CDN may be blocking this request.".data,
    tip := "Try again — each attempt gets a different server route.".data }

inductive DlResp where
  | json (status : Nat) (body : ErrBody)
  | stream (status : Nat) (filename : List Char) (chunks : List (List Nat))
deriving DecidableEq, Repr

def DlResp.status : DlResp → Nat
  | .json s _ => s
  | .stream s _ _ => s

/-- The download route's query parameters.  `u` and `t` are modelled as the
already base64url-decoded values: `Buffer.from(x, "base64url")` never throws,
so the surrounding `try` blocks are inert. -/
structure DlParams where
  u : Option (List Char)
  t : Option (List Char)
  q : Option (List Char)
  quality : Option (List Char)
  id : Option (List Char)

/-- JS truthiness of `searchParams.get(...)`: `null` and `""` are falsy. -/
def truthyOpt : Option (List Char) → Bool
  | some s => !s.isEmpty
  | none => false

/-- `get("q") || get("quality") || "auto"` (lines 131–134). -/
def qualityParamOf (p : DlParams) : List Char :=
  if truthyOpt p.q then p.q.getD []
  else if truthyOpt p.quality then p.quality.getD []
  else "auto".data

structure DlOutcome where
  bAttempted : Bool
  title : List Char
  resp : DlResp

/-- The download route's `GET` handler (lines 128–223): Strategy 1 (full
chain by id) when `id` is truthy, Strategy 2 (direct variant URL) when no
segments yet and `u` is truthy, a single 502 JSON response when no segments
resolve, otherwise the 200 streaming response with the attachment filename
`` `${title} ${qualityParam}p.ts` ``.  `bAttempted` records whether Strategy 2
ran. -/
def downloadGET
    (metaAttempt : List Char → Nat → Option MetaData)
    (textAttempt : List Char → Nat → Option (List Char))
    (segFetch : List Char → Option (List (List Nat)))
    (p : DlParams) : DlOutcome :=
  let qualityParam := qualityParamOf p
  let title0 :=
    match p.t with
    | some tc => tc
    | none => "video".data
  let aRes :=
    if truthyOpt p.id then
      (resolveVariantAndSegments metaAttempt textAttempt (p.id.getD []) qualityParam).1
    else none
  let segsA : Option (List (List Char)) := aRes.map (·.1)
  let title1 :=
    match aRes with
    | some r => if title0 == "video".data then r.2 else title0
    | none => title0
  let bAtt := segsA.isNone && truthyOpt p.u
  let segs := if bAtt then (streamFromVariantUrl textAttempt (p.u.getD [])).1 else segsA
  match segs with
  | none => { bAttempted := bAtt, title := title1, resp := .json 502 errCdn }
  | some ss =>
    if ss.isEmpty then { bAttempted := bAtt, title := title1, resp := .json 502 errCdn }
    else
      { bAttempted := bAtt, title := title1,
        resp := .stream 200 (title1 ++ ' ' :: qualityParam ++ ("p.ts").data)
          (streamSegments segFetch ss) }

/-! ## Claim C1: streamed bytes are exactly the concatenation of the
successfully fetched segments -/

/-- The 10-segment scenario's URL list. -/
def seg10Urls : List (List Char) :=
  [("s0").data, ("s1").data, ("s2").data, ("s3").data, ("s4").data,
   ("s5").data, ("s6").data, ("s7").data, ("s8").data, ("s9").data]

/-- A segment fetcher that fails exactly on segment #4 (`"s3"`, index 3) and
otherwise delivers one chunk holding the URL's character codes. -/
def seg10Fetch (u : List Char) : Option (List (List Nat)) :=
  if u == ("s3").data then none else some [u.map Char.toNat]

/-- Claim C1: the bytes written to the output stream are exactly the
concatenation, in list order, of the full bodies of those segments whose
fetches succeed; failed fetches are skipped and contribute no bytes.  In
particular, the 10-segment list where segment #4 fails yields the bytes of
the other 9 segments in order. -/
theorem claim_C1 :
    (∀ (segFetch : List Char → Option (List (List Nat))) (segs : List (List Char)),
      (streamSegments segFetch segs).flatten =
        (segs.filterMap (fun u => (segFetch u).map List.flatten)).flatten) ∧
    streamSegments seg10Fetch seg10Urls =
      (seg10Urls.filter (fun u => !(u == ("s3").data))).map (fun u => u.map Char.toNat) := by
  constructor
  · intro segFetch segs
    induction segs with
    | nil => rfl
    | cons u rest ih =>
      cases hf : segFetch u with
      | none => simp [streamSegments, hf, ih]
      | some chunks => simp [streamSegments, hf, ih]
  · decide

/-! ## Claim C8: bounded retry with linear backoff -/

theorem fetchOkT_cap {α : Type} (attempt : Nat → Option α) (retries : Nat) :
    (fetchOkT attempt retries).2.cap = retries := rfl

theorem fetchOkGo_spec {α : Type} (attempt : Nat → Option α) (retries : Nat) :
    ∀ rem i, rem = retries - i →
      (fetchOkGo attempt retries rem i).1 = ((List.range' i rem).filterMap attempt).head? ∧
      (fetchOkGo attempt retries rem i).2.2 ≤ rem ∧
      (fetchOkGo attempt retries rem i).2.1 =
        (List.range' (i + 1) ((fetchOkGo attempt retries rem i).2.2 - 1)).map
          (fun k => 1000 * k) ∧
      (0 < rem → 1 ≤ (fetchOkGo attempt retries rem i).2.2) := by
  intro rem
  induction rem with
  | zero => intro i h; exact ⟨rfl, Nat.le_refl 0, rfl, by omega⟩
  | succ rem ih =>
    intro i hrem
    have hi : i < retries := by omega
    have hrange : List.range' i (rem + 1) = i :: List.range' (i + 1) rem :=
      List.range'_succ i rem 1
    cases ha : attempt i with
    | some r =>
      refine ⟨?_, by simp [fetchOkGo, ha], by simp [fetchOkGo, ha], by simp [fetchOkGo, ha]⟩
      simp [fetchOkGo, ha, hrange, List.filterMap_cons]
    | none =>
      have hrec := ih (i + 1) (by omega)
      by_cases hlt : i < retries - 1
      · have hposrem : 0 < rem := by omega
        have hone := hrec.2.2.2 hposrem
        refine ⟨?_, ?_, ?_, ?_⟩
        · simp only [fetchOkGo, ha, hrange, List.filterMap_cons]
          exact hrec.1
        · simp only [fetchOkGo, ha]
          have := hrec.2.1
          omega
        · simp only [fetchOkGo, ha, hlt, if_true]
          have harr : (fetchOkGo attempt retries rem (i + 1)).2.2 - 1 + 1 =
              (fetchOkGo attempt retries rem (i + 1)).2.2 := by omega
          rw [hrec.2.2.1]
          have : List.range' (i + 1) ((fetchOkGo attempt retries rem (i + 1)).2.2 + 1 - 1) =
              (i + 1) :: List.range' (i + 2) ((fetchOkGo attempt retries rem (i + 1)).2.2 - 1) := by
            rw [Nat.add_sub_cancel]
            conv_lhs => rw [← harr]
            exact List.range'_succ (i + 1) _ 1
          rw [this]
          simp
        · intro _
          simp only [fetchOkGo, ha]
          omega
      · have hrem0 : rem = 0 := by omega
        subst hrem0
        refine ⟨?_, ?_, ?_, ?_⟩
        · simp only [fetchOkGo, ha, hrange, List.filterMap_cons]
          rfl
        · simp [fetchOkGo, ha]
        · simp [fetchOkGo, ha, hlt]
        · intro _; simp [fetchOkGo, ha]

/-- Claim C8: every `fetchOk` call returns the first successful attempt (or
`none` once the cap is exhausted), makes at most its cap of attempts, and
sleeps the linear backoff `1000 * k` ms for `k = 1, 2, …` between consecutive
tries; and the Streamer's chain uses exactly the fixed caps 2 (metadata),
5 (master manifest), 3 (variant playlist) — `streamFromVariantUrl` likewise
caps its variant-playlist fetch at 3.  Retries are never unbounded. -/
theorem claim_C8 :
    (∀ (α : Type) (attempt : Nat → Option α) (retries : Nat),
      (fetchOkT attempt retries).1 = ((List.range' 0 retries).filterMap attempt).head? ∧
      (fetchOkT attempt retries).2.attempts ≤ retries ∧
      (fetchOkT attempt retries).2.delays =
        (List.range' 1 ((fetchOkT attempt retries).2.attempts - 1)).map (fun k => 1000 * k)) ∧
    (∀ metaAttempt textAttempt videoId quality,
      ((resolveVariantAndSegments metaAttempt textAttempt videoId quality).2.map
        FetchTrace.cap) <+: [2, 5, 3]) ∧
    (∀ textAttempt url, (streamFromVariantUrl textAttempt url).2.cap = 3) := by
  refine ⟨?_, ?_, ?_⟩
  · intro α attempt retries
    have h := fetchOkGo_spec attempt retries retries 0 (by omega)
    exact ⟨h.1, h.2.1, h.2.2.1⟩
  · intro metaAttempt textAttempt videoId quality
    simp only [resolveVariantAndSegments]
    repeat' split
    all_goals simp only [List.map_cons, List.map_nil, fetchOkT_cap]
    all_goals first
      | exact ⟨[5, 3], rfl⟩
      | exact ⟨[3], rfl⟩
      | exact ⟨[], rfl⟩
  · intro textAttempt url
    simp only [streamFromVariantUrl]
    split <;> rfl

/-! ## Structural facts about the resolution strategies -/

/-- `resolveVariantAndSegments` never reports an empty segment list: its last
step returns `null` when `segments.length === 0`. -/
theorem resolve_segments_nonempty
    (metaAttempt : List Char → Nat → Option MetaData)
    (textAttempt : List Char → Nat → Option (List Char))
    (videoId quality : List Char) :
    ∀ r, (resolveVariantAndSegments metaAttempt textAttempt videoId quality).1 = some r →
      r.1 ≠ [] := by
  intro r h
  simp only [resolveVariantAndSegments] at h
  repeat' split at h
  all_goals cases h
  all_goals simp_all

/-- On success, the title `resolveVariantAndSegments` reports is the sanitized
metadata title (with the `"video"` fallback for a falsy `meta.title`). -/
theorem resolve_title
    (metaAttempt : List Char → Nat → Option MetaData)
    (textAttempt : List Char → Nat → Option (List Char))
    (videoId quality : List Char) (r : List (List Char) × List Char) (meta : MetaData) :
    (resolveVariantAndSegments metaAttempt textAttempt videoId quality).1 = some r →
    (fetchOkT (metaAttempt videoId) 2).1 = some meta →
    r.2 = sanitizeTitle (if meta.title.isEmpty then "video".data else meta.title) := by
  intro h hm
  simp only [resolveVariantAndSegments, hm] at h
  repeat' split at h
  all_goals cases h
  all_goals simp_all

/-- `streamFromVariantUrl` never reports an empty segment list either. -/
theorem streamFrom_segments_nonempty
    (textAttempt : List Char → Nat → Option (List Char)) (variantUrl : List Char) :
    ∀ ss, (streamFromVariantUrl textAttempt variantUrl).1 = some ss → ss ≠ [] := by
  intro ss h
  simp only [streamFromVariantUrl] at h
  repeat' split at h
  all_goals cases h
  all_goals simp_all

/-! ## Claims C4, C9, C10: the download handler's strategy fallback, error
response and title handling -/

/-- Claim C4: Strategy B (direct pre-resolved variant URL) is attempted iff
Strategy A yields no segments and a (truthy) `u` parameter was supplied; and
the handler answers the 502 JSON body carrying both `error` and `tip` iff
neither strategy yields at least one segment URL (Strategy A's result is
`none`, and Strategy B is either unavailable or also yields `none`; neither
strategy ever reports an empty segment list). -/
theorem claim_C4
    (metaAttempt : List Char → Nat → Option MetaData)
    (textAttempt : List Char → Nat → Option (List Char))
    (segFetch : List Char → Option (List (List Nat)))
    (p : DlParams) :
    ((downloadGET metaAttempt textAttempt segFetch p).bAttempted =
      ((if truthyOpt p.id then
          (resolveVariantAndSegments metaAttempt textAttempt (p.id.getD [])
            (qualityParamOf p)).1
        else none).isNone && truthyOpt p.u)) ∧
    (((downloadGET metaAttempt textAttempt segFetch p).resp = DlResp.json 502 errCdn) ↔
      ((if truthyOpt p.id then
          (resolveVariantAndSegments metaAttempt textAttempt (p.id.getD [])
            (qualityParamOf p)).1
        else none) = none ∧
       (truthyOpt p.u = false ∨
        (streamFromVariantUrl textAttempt (p.u.getD [])).1 = none))) := by
  by_cases hid : truthyOpt p.id = true
  · cases hres : (resolveVariantAndSegments metaAttempt textAttempt (p.id.getD [])
        (qualityParamOf p)).1 with
    | some r =>
      have hne : r.1 ≠ [] :=
        resolve_segments_nonempty metaAttempt textAttempt (p.id.getD []) (qualityParamOf p) r hres
      have hempty : r.1.isEmpty = false := by
        cases hr1 : r.1 with
        | nil => exact absurd hr1 hne
        | cons a b => rfl
      constructor
      · simp [downloadGET, hid, hres, hempty]
      · simp [downloadGET, hid, hres, hempty]
    | none =>
      by_cases hu : truthyOpt p.u = true
      · cases hB : (streamFromVariantUrl textAttempt (p.u.getD [])).1 with
        | some ss =>
          have hne : ss ≠ [] := streamFrom_segments_nonempty textAttempt (p.u.getD []) ss hB
          have hempty : ss.isEmpty = false := by
            cases hs : ss with
            | nil => exact absurd hs hne
            | cons a b => rfl
          constructor
          · simp [downloadGET, hid, hres, hu, hB, hempty]
          · simp [downloadGET, hid, hres, hu, hB, hempty]
        | none =>
          constructor
          · simp [downloadGET, hid, hres, hu, hB]
          · simp [downloadGET, hid, hres, hu, hB]
      · rw [Bool.not_eq_true] at hu
        constructor
        · simp [downloadGET, hid, hres, hu]
        · simp [downloadGET, hid, hres, hu]
  · rw [Bool.not_eq_true] at hid
    by_cases hu : truthyOpt p.u = true
    · cases hB : (streamFromVariantUrl textAttempt (p.u.getD [])).1 with
      | some ss =>
        have hne : ss ≠ [] := streamFrom_segments_nonempty textAttempt (p.u.getD []) ss hB
        have hempty : ss.isEmpty = false := by
          cases hs : ss with
          | nil => exact absurd hs hne
          | cons a b => rfl
        constructor
        · simp [downloadGET, hid, hu, hB, hempty]
        · simp [downloadGET, hid, hu, hB, hempty]
      | none =>
        constructor
        · simp [downloadGET, hid, hu, hB]
        · simp [downloadGET, hid, hu, hB]
    · rw [Bool.not_eq_true] at hu
      constructor
      · simp [downloadGET, hid, hu]
      · simp [downloadGET, hid, hu]

/-- Concrete oracles instantiating the download handler: the metadata fetch
always succeeds with title `"abc!"` and master URL `http://h/m.m3u8`; the
master manifest is `exManifest`; the variant playlist holds two segments. -/
def exMetaAttempt : List Char → Nat → Option MetaData :=
  fun _ _ => some { title := ("abc!").data, autoUrl := some (("http://h/m.m3u8").data) }

def exMasterText : List Char :=
  ("#EXTM3U\n#EXT-X-STREAM-INF:RESOLUTION=1280x720,NAME=\"720p\"\nseg.m3u8").data

def exTextAttempt : List Char → Nat → Option (List Char) :=
  fun url _ =>
    if url == ("http://h/m.m3u8").data then some exMasterText
    else if url == ("http://h/seg.m3u8").data then some (("s1.ts\ns2.ts").data)
    else none

def exSegFetch : List Char → Option (List (List Nat)) :=
  fun _ => some [[1]]

def exParamsNoT : DlParams :=
  { u := none, t := none, q := none, quality := none, id := some (("v1").data) }

def exParamsEmpty : DlParams :=
  { u := none, t := none, q := none, quality := none, id := none }

def exParamsVideoT : DlParams :=
  { u := none, t := some (("video").data), q := none, quality := none, id := some (("v1").data) }

theorem claim_C4_witness :
    ((downloadGET exMetaAttempt exTextAttempt exSegFetch exParamsEmpty).bAttempted =
      ((if truthyOpt exParamsEmpty.id then
          (resolveVariantAndSegments exMetaAttempt exTextAttempt (exParamsEmpty.id.getD [])
            (qualityParamOf exParamsEmpty)).1
        else none).isNone && truthyOpt exParamsEmpty.u)) ∧
    (((downloadGET exMetaAttempt exTextAttempt exSegFetch exParamsEmpty).resp =
        DlResp.json 502 errCdn) ↔
      ((if truthyOpt exParamsEmpty.id then
          (resolveVariantAndSegments exMetaAttempt exTextAttempt (exParamsEmpty.id.getD [])
            (qualityParamOf exParamsEmpty)).1
        else none) = none ∧
       (truthyOpt exParamsEmpty.u = false ∨
        (streamFromVariantUrl exTextAttempt (exParamsEmpty.u.getD [])).1 = none))) :=
  claim_C4 exMetaAttempt exTextAttempt exSegFetch exParamsEmpty

/-- Claim C9: a request supplying neither a (truthy) `id` nor a (truthy) `u`
gets the generic 502 could-not-resolve body; and the download handler never
answers 400 — its only response sites are the 502 JSON and the 200 stream. -/
theorem claim_C9
    (metaAttempt : List Char → Nat → Option MetaData)
    (textAttempt : List Char → Nat → Option (List Char))
    (segFetch : List Char → Option (List (List Nat)))
    (p : DlParams) :
    (truthyOpt p.id = false → truthyOpt p.u = false →
      (downloadGET metaAttempt textAttempt segFetch p).resp = DlResp.json 502 errCdn) ∧
    (downloadGET metaAttempt textAttempt segFetch p).resp.status ≠ 400 := by
  constructor
  · intro hid hu
    simp [downloadGET, hid, hu]
  · have hcases : (downloadGET metaAttempt textAttempt segFetch p).resp =
        DlResp.json 502 errCdn ∨
        ∃ fn ch, (downloadGET metaAttempt textAttempt segFetch p).resp =
          DlResp.stream 200 fn ch := by
      simp only [downloadGET]
      repeat' split
      all_goals simp
    rcases hcases with h | ⟨fn, ch, h⟩ <;> simp [h, DlResp.status]

theorem claim_C9_witness :
    (downloadGET exMetaAttempt exTextAttempt exSegFetch exParamsEmpty).resp =
      DlResp.json 502 errCdn ∧
    (downloadGET exMetaAttempt exTextAttempt exSegFetch exParamsEmpty).resp.status ≠ 400 :=
  ⟨(claim_C9 exMetaAttempt exTextAttempt exSegFetch exParamsEmpty).1 rfl rfl,
   (claim_C9 exMetaAttempt exTextAttempt exSegFetch exParamsEmpty).2⟩

/-- Claim C10 as stated is false in its second half: a caller-supplied `t`
parameter is *not* always placed verbatim into the filename.  If the decoded
`t` is exactly `"video"` and Strategy A succeeds, the handler's
`if (title === "video") title = result.title` overwrites it with the (sanitized)
upstream metadata title: here `t` decodes to `"video"` but the filename title
is `"abc"`. -/
theorem claim_C10_counterexample :
    exParamsVideoT.t = some (("video").data) ∧
    (downloadGET exMetaAttempt exTextAttempt exSegFetch exParamsVideoT).title = ("abc").data ∧
    ¬((downloadGET exMetaAttempt exTextAttempt exSegFetch exParamsVideoT).title =
        ("video").data) := by
  refine ⟨rfl, by decide, by decide⟩

/-- Claim C10, amended: with no `t` supplied and Strategy A succeeding, the
filename's title portion is the upstream metadata title sanitized (characters
other than word characters, whitespace and hyphens removed, truncated to 60,
trimmed); a caller-supplied `t` is base64url-decoded and placed into the
filename unsanitized — *unless* it decodes exactly to `"video"` and Strategy A
succeeds, in which case Strategy A's sanitized title replaces it (the code
treats the decoded `"video"` as "no title supplied"). -/
theorem claim_C10
    (metaAttempt : List Char → Nat → Option MetaData)
    (textAttempt : List Char → Nat → Option (List Char))
    (segFetch : List Char → Option (List (List Nat)))
    (p : DlParams) :
    (p.t = none → truthyOpt p.id = true →
      ∀ r, (resolveVariantAndSegments metaAttempt textAttempt (p.id.getD [])
              (qualityParamOf p)).1 = some r →
        ((downloadGET metaAttempt textAttempt segFetch p).title = r.2 ∧
         (downloadGET metaAttempt textAttempt segFetch p).resp =
           DlResp.stream 200 (r.2 ++ ' ' :: qualityParamOf p ++ ("p.ts").data)
             (streamSegments segFetch r.1) ∧
         (∀ meta, (fetchOkT (metaAttempt (p.id.getD [])) 2).1 = some meta →
           r.2 = sanitizeTitle (if meta.title.isEmpty then "video".data else meta.title)))) ∧
    (∀ tc, p.t = some tc → tc ≠ ("video").data →
      (downloadGET metaAttempt textAttempt segFetch p).title = tc) ∧
    (∀ tc, p.t = some tc →
      (if truthyOpt p.id then
        (resolveVariantAndSegments metaAttempt textAttempt (p.id.getD [])
          (qualityParamOf p)).1
      else none) = none →
      (downloadGET metaAttempt textAttempt segFetch p).title = tc) := by
  refine ⟨?_, ?_, ?_⟩
  · intro ht hid r hres
    have hne : r.1 ≠ [] :=
      resolve_segments_nonempty metaAttempt textAttempt (p.id.getD []) (qualityParamOf p) r hres
    have hempty : r.1.isEmpty = false := by
      cases hr1 : r.1 with
      | nil => exact absurd hr1 hne
      | cons a b => rfl
    refine ⟨?_, ?_, ?_⟩
    · simp [downloadGET, ht, hid, hres, hempty]
    · simp [downloadGET, ht, hid, hres, hempty]
    · intro meta hm
      exact resolve_title metaAttempt textAttempt (p.id.getD []) (qualityParamOf p) r meta hres hm
  · intro tc ht htc
    have hbeq : (tc == ("video").data) = false := by
      rw [beq_eq_false_iff_ne]
      exact htc
    by_cases hid : truthyOpt p.id = true
    · cases hres : (resolveVariantAndSegments metaAttempt textAttempt (p.id.getD [])
          (qualityParamOf p)).1 with
      | some r =>
        have hne : r.1 ≠ [] :=
          resolve_segments_nonempty metaAttempt textAttempt (p.id.getD [])
            (qualityParamOf p) r hres
        have hempty : r.1.isEmpty = false := by
          cases hr1 : r.1 with
          | nil => exact absurd hr1 hne
          | cons a b => rfl
        simp [downloadGET, ht, hid, hres, hbeq, hempty]
      | none =>
        simp only [downloadGET, ht, hid, hres, if_true]
        repeat' split
        all_goals rfl
    · rw [Bool.not_eq_true] at hid
      simp only [downloadGET, ht, hid, Bool.false_eq_true, if_false]
      repeat' split
      all_goals rfl
  · intro tc ht hres
    by_cases hid : truthyOpt p.id = true
    · rw [if_pos hid] at hres
      simp only [downloadGET, ht, hid, hres, if_true]
      repeat' split
      all_goals rfl
    · rw [Bool.not_eq_true] at hid
      simp only [downloadGET, ht, hid, Bool.false_eq_true, if_false]
      repeat' split
      all_goals rfl

theorem claim_C10_witness :
    (downloadGET exMetaAttempt exTextAttempt exSegFetch exParamsNoT).title = ("abc").data ∧
    ("abc").data =
      sanitizeTitle (if (("abc!").data).isEmpty then ("video").data else ("abc!").data) := by
  have h := (claim_C10 exMetaAttempt exTextAttempt exSegFetch exParamsNoT).1 rfl (by decide)
    ((("http://h/s1.ts").data :: ("http://h/s2.ts").data :: []), ("abc").data) (by decide)
  exact ⟨h.1, h.2.2 (MetaData.mk (("abc!").data) (some (("http://h/m.m3u8").data))) (by decide)⟩

/-! ## Claim C7: the Extractor's final sort (`src/app/api/video/route.ts`)

`streams.sort((a, b) => (b.height || 0) - (a.height || 0))` (line 174).
`Array.prototype.sort` is stable (ES2019), and this comparator is consistent
(it compares the numeric key `height || 0`), so the result is the unique
stable descending order by that key; we model it as a stable insertion sort.
The spec's reading — height descending with `null` heights *last* and stable
ties — is modelled by a second insertion sort for comparison. -/

structure StreamEntry where
  quality : List Char
  url : List Char
  width : Option Nat
  height : Option Nat
deriving DecidableEq, Repr

/-- The comparator's sort key: `height || 0` (`null` and `0` both give 0). -/
def hKey (s : StreamEntry) : Nat := s.height.getD 0

/-- Stable insert for descending `hKey`: the incoming element (originally the
earlier one) goes before the first element whose key is not greater. -/
def insertByKey (x : StreamEntry) : List StreamEntry → List StreamEntry
  | [] => [x]
  | y :: ys => if hKey y ≤ hKey x then x :: y :: ys else y :: insertByKey x ys

/-- The code's sort: stable, descending by `height || 0`. -/
def jsSortStreams : List StreamEntry → List StreamEntry
  | [] => []
  | x :: xs => insertByKey x (jsSortStreams xs)

/-- The spec's order: height descending with `null` heights last (an earlier
element `x` may stay before `y` iff this holds). -/
def specGe (x y : StreamEntry) : Bool :=
  match x.height, y.height with
  | some a, some b => decide (b ≤ a)
  | some _, none => true
  | none, none => true
  | none, some _ => false

def insertSpec (x : StreamEntry) : List StreamEntry → List StreamEntry
  | [] => [x]
  | y :: ys => if specGe x y then x :: y :: ys else y :: insertSpec x ys

/-- Stable sort realizing the spec's order (height descending, nulls last,
ties in appearance order). -/
def specSortStreams : List StreamEntry → List StreamEntry
  | [] => []
  | x :: xs => insertSpec x (specSortStreams xs)

/-- The stream-list construction from parsed manifest variants (video route
lines 119–129); `b64` abstracts `Buffer.from(x).toString("base64url")`, whose
content never influences the sort. -/
def buildStreams (b64 : List Char → List Char) (videoId title : List Char)
    (vs : List Video.Variant) : List StreamEntry :=
  vs.map (fun v =>
    { quality := v.name ++ ("p").data,
      url := ("/api/download?id=").data ++ videoId ++ ("&u=").data ++ b64 v.url ++
        ("&t=").data ++ b64 title ++ ("&q=").data ++ v.name,
      width := v.width, height := v.height })

theorem insertSpec_perm (x : StreamEntry) : ∀ m, (insertSpec x m).Perm (x :: m) := by
  intro m
  induction m with
  | nil => exact List.Perm.refl _
  | cons y ys ih =>
    simp only [insertSpec]
    split
    · exact List.Perm.refl _
    · exact ((ih.cons y).trans (List.Perm.swap x y ys))

theorem specSort_perm : ∀ l, (specSortStreams l).Perm l := by
  intro l
  induction l with
  | nil => exact List.Perm.refl _
  | cons x xs ih =>
    exact (insertSpec_perm x (specSortStreams xs)).trans (ih.cons x)

theorem insert_agree (x : StreamEntry) :
    ∀ m, (∀ y ∈ m, ∀ h, y.height = some h → 0 < h) →
      insertByKey x m = insertSpec x m := by
  intro m
  induction m with
  | nil => intro _; rfl
  | cons y ys ih =>
    intro hm
    have hcond : (hKey y ≤ hKey x) ↔ (specGe x y = true) := by
      cases hxh : x.height with
      | none =>
        cases hyh : y.height with
        | none => simp [hKey, specGe, hxh, hyh]
        | some b =>
          have hb : 0 < b := hm y (List.mem_cons_self y ys) b hyh
          simp [hKey, specGe, hxh, hyh]
          omega
      | some a =>
        cases hyh : y.height with
        | none => simp [hKey, specGe, hxh, hyh]
        | some b => simp [hKey, specGe, hxh, hyh]
    simp only [insertByKey, insertSpec]
    by_cases hc : hKey y ≤ hKey x
    · rw [if_pos hc, if_pos (hcond.mp hc)]
    · rw [if_neg hc, if_neg (by rw [← hcond]; exact hc)]
      rw [ih (fun z hz => hm z (List.mem_cons_of_mem y hz))]

/-- Claim C7 as stated is false: the comparator's key is `height || 0`, so a
rendition of height `0` (producible from a `RESOLUTION=…x0` manifest entry)
ties with `null`-height renditions rather than preceding them.  On this
extraction output the code's sort leaves the null-height entry first, while
the claimed order (nulls last) puts the height-0 entry first. -/
theorem claim_C7_counterexample :
    ¬(jsSortStreams (buildStreams (fun s => s) (("v1").data) (("T").data)
        (Video.parseM3u8Variants
          (("#EXT-X-STREAM-INF:NAME=\"x\"\nu.m3u8\n#EXT-X-STREAM-INF:RESOLUTION=2x0\nv.m3u8").data)
          (("http://h").data))) =
      specSortStreams (buildStreams (fun s => s) (("v1").data) (("T").data)
        (Video.parseM3u8Variants
          (("#EXT-X-STREAM-INF:NAME=\"x\"\nu.m3u8\n#EXT-X-STREAM-INF:RESOLUTION=2x0\nv.m3u8").data)
          (("http://h").data)))) := by
  decide

/-- Claim C7, amended: the final list is the stable descending sort of the
built list by the key `height || 0` — in particular a permutation of it; and
*provided every non-null height is positive* (true of every real rendition
height), this coincides with the claimed order: height descending, null
heights last, ties (including among nulls) in original appearance order.  A
height of exactly 0 instead ties with the null heights. -/
theorem claim_C7 (l : List StreamEntry)
    (hpos : ∀ s ∈ l, ∀ h, s.height = some h → 0 < h) :
    jsSortStreams l = specSortStreams l ∧ (jsSortStreams l).Perm l := by
  have heq : jsSortStreams l = specSortStreams l := by
    induction l with
    | nil => rfl
    | cons x xs ih =>
      simp only [jsSortStreams, specSortStreams]
      rw [ih (fun z hz => hpos z (List.mem_cons_of_mem x hz))]
      exact insert_agree x (specSortStreams xs)
        (fun z hz => hpos z (List.mem_cons_of_mem x ((specSort_perm xs).mem_iff.mp hz)))
  exact ⟨heq, heq ▸ specSort_perm l⟩

def exStreams : List StreamEntry :=
  [StreamEntry.mk (("480p").data) (("u1").data) none (some 480),
   StreamEntry.mk (("720p").data) (("u2").data) none (some 720),
   StreamEntry.mk (("autop").data) (("u3").data) none none]

theorem claim_C7_witness :
    jsSortStreams exStreams = specSortStreams exStreams ∧
    (jsSortStreams exStreams).Perm exStreams :=
  claim_C7 exStreams (by decide)

/-! ## The Resolver (`src/app/api/search/route.ts`) -/

/-- The fields of one item of the platform API's `data.list` that `search`
reads.  Optional fields model absent/null JSON values. -/
structure ApiItem where
  title : Option (List Char)
  url : Option (List Char)
  id : List Char
  thumb : Option (List Char)
  duration : Option Nat
  owner : Option (List Char)
deriving DecidableEq, Repr

structure SearchResult where
  title : List Char
  url : List Char
  thumbnail : Option (List Char)
  duration : Option (List Char)
  channel : Option (List Char)
deriving DecidableEq, Repr

/-- JS truthiness filter on an optional string: `null` and `""` are falsy. -/
def optTruthy : Option (List Char) → Option (List Char)
  | some s => if s.isEmpty then none else some s
  | none => none

/-- `String(s).padStart(2, "0")`. -/
def pad2 (n : Nat) : List Char :=
  let d := Nat.toDigits 10 n
  List.replicate (2 - d.length) '0' ++ d

/-- The `M:SS` duration label: `` `${m}:${String(s).padStart(2, "0")}` ``. -/
def fmtDuration (durSec : Nat) : List Char :=
  Nat.toDigits 10 (durSec / 60) ++ ':' :: pad2 (durSec % 60)

/-- The item mapping of `dailymotionApiSearch` (search route lines 40–56). -/
def mapApiItem (item : ApiItem) : SearchResult :=
  let durSec := item.duration.getD 0
  { title := (optTruthy item.title).getD [],
    url := (optTruthy item.url).getD
      (("https://www.dailymotion.com/video/").data ++ item.id),
    thumbnail := optTruthy item.thumb,
    duration := if durSec == 0 then none else some (fmtDuration durSec),
    channel := optTruthy item.owner }

/-- `dailymotionApiSearch`'s result mapping: `(data.list || []).map(...)`.
`dataList = none` models an absent `data.list`. -/
def dailymotionApiSearch (dataList : Option (List ApiItem)) : List SearchResult :=
  (dataList.getD []).map mapApiItem

/-! ### The Google-scrape fallback (`googleSearchDailymotion`, lines 62–106)

The link regex is
`/\/url\?q=(https?:\/\/(?:www\.)?dailymotion\.com\/video\/[a-zA-Z0-9]+)[^"&]*/g`;
`exec` in a loop scans left to right, resuming after each full match. -/

def charAlnum (c : Char) : Bool := c.isAlphanum

/-- Parse of the captured group
`https?://(?:www\.)?dailymotion\.com/video/[a-zA-Z0-9]+` at the start of
`cs`, returning (group, rest-after-group). -/
def watchCore (cs : List Char) : Option (List Char × List Char) :=
  if ("http".data).isPrefixOf cs then
    let cs1 := cs.drop 4
    let sPart : List Char :=
      match cs1 with
      | 's' :: _ => ['s']
      | _ => []
    let cs2 := cs1.drop sPart.length
    if ("://".data).isPrefixOf cs2 then
      let cs3 := cs2.drop 3
      let wPart : List Char := if ("www.".data).isPrefixOf cs3 then ("www.").data else []
      let cs4 := cs3.drop wPart.length
      if ("dailymotion.com/video/".data).isPrefixOf cs4 then
        let cs5 := cs4.drop 22
        let idPart := cs5.takeWhile charAlnum
        if idPart.isEmpty then none
        else some (("http".data) ++ sPart ++ ("://".data) ++ wPart ++
          ("dailymotion.com/video/".data) ++ idPart, cs5.drop idPart.length)
      else none
    else none
  else none

/-- Full link-regex match anchored at the start of `cs`: the literal
`/url?q=`, the captured group, then the greedy `[^"&]*` tail; returns
(group, rest-after-whole-match). -/
def urlqAt (cs : List Char) : Option (List Char × List Char) :=
  if ("/url?q=".data).isPrefixOf cs then
    match watchCore (cs.drop 7) with
    | some (grp, rest) =>
      let tail := rest.takeWhile (fun c => !(c == '"' || c == '&'))
      some (grp, rest.drop tail.length)
    | none => none
  else none

/-- `decodeURIComponent` restricted to inputs without `%`, on which it is the
identity: the captured group is drawn from the regex's literal characters and
`[a-zA-Z0-9]`, so it never contains a percent sign. -/
def decodeURIComponentPctFree (s : List Char) : List Char := s

/-- The lazy `(.*?)<\/h3>` part of the `<h3>` regex: the shortest run of
non-line-terminator characters up to a closing `</h3>`. -/
def lazyToH3Close : List Char → Option (List Char)
  | [] => none
  | c :: rest =>
    if ("</h3>".data).isPrefixOf (c :: rest) then some []
    else if c == '\n' || c == '\r' || c.toNat == 0x2028 || c.toNat == 0x2029 then none
    else
      match lazyToH3Close rest with
      | some inner => some (c :: inner)
      | none => none

/-- Match of `<h3[^>]*>(.*?)<\/h3>` anchored at the start of `cs`. -/
def h3At (cs : List Char) : Option (List Char) :=
  if ("<h3".data).isPrefixOf cs then
    let r1 := cs.drop 3
    let attrs := r1.takeWhile (fun c => !(c == '>'))
    match r1.drop attrs.length with
    | '>' :: r2 => lazyToH3Close r2
    | _ => none
  else none

/-- Leftmost `<h3…>…</h3>` match (`snippet.match(/<h3[^>]*>(.*?)<\/h3>/)`). -/
def findH3 : List Char → Option (List Char)
  | [] => none
  | c :: rest =>
    match h3At (c :: rest) with
    | some g => some g
    | none => findH3 rest

/-- Match of `[^>]+>` right after a `<` (for the tag-stripping replace). -/
def tagEnd (cs : List Char) : Option (List Char) :=
  let body := cs.takeWhile (fun c => !(c == '>'))
  if body.isEmpty then none
  else
    match cs.drop body.length with
    | '>' :: r => some r
    | _ => none

/-- `s.replace(/<[^>]+>/g, "")`, with fuel bounding the scan (each step
consumes at least one character, so `fuel = s.length` never runs out). -/
def stripTagsF : Nat → List Char → List Char
  | 0, cs => cs
  | fuel + 1, cs =>
    match cs with
    | [] => []
    | '<' :: rest =>
      match tagEnd rest with
      | some r => stripTagsF fuel r
      | none => '<' :: stripTagsF fuel rest
    | c :: rest => c :: stripTagsF fuel rest

def stripTags (cs : List Char) : List Char := stripTagsF cs.length cs

/-- The `while ((match = linkRegex.exec(html)) !== null)` loop (lines 79–103):
scan for the next link match, de-duplicate by decoded URL, take the nearby
`<h3>` text (or the URL itself) as title, drop titles shorter than 3, stop at
`maxResults`.  `pos` is the absolute index of `cs` in `html` (for the ±500
snippet); fuel bounds the scan (each step consumes ≥ 1 character). -/
def googleLoopF (html : List Char) (maxResults : Nat) :
    Nat → List Char → Nat → List (List Char) → List SearchResult → List SearchResult
  | 0, _, _, _, acc => acc.reverse
  | fuel + 1, cs, pos, seen, acc =>
    match cs with
    | [] => acc.reverse
    | _ :: rest =>
      match urlqAt cs with
      | none => googleLoopF html maxResults fuel rest (pos + 1) seen acc
      | some (grp, after) =>
        let consumed := cs.length - after.length
        let dmUrl := decodeURIComponentPctFree grp
        if seen.contains dmUrl then
          googleLoopF html maxResults fuel after (pos + consumed) seen acc
        else
          let seen1 := dmUrl :: seen
          let snippet := (html.drop (pos - 500)).take (pos + 500 - (pos - 500))
          let title :=
            match findH3 snippet with
            | some inner => jsTrim (stripTags inner)
            | none => dmUrl
          if title.length < 3 then
            googleLoopF html maxResults fuel after (pos + consumed) seen1 acc
          else
            let acc1 := SearchResult.mk title dmUrl none none none :: acc
            if maxResults ≤ acc1.length then acc1.reverse
            else googleLoopF html maxResults fuel after (pos + consumed) seen1 acc1

/-- `googleSearchDailymotion` applied to the fetched result page. -/
def googleSearchDailymotion (html : List Char) (maxResults : Nat) : List SearchResult :=
  googleLoopF html maxResults (html.length + 1) html 0 [] []

/-! ### The search `GET` handler (lines 108–137) -/

inductive SearchResp where
  | ok (status : Nat) (items : List SearchResult)
  | err (status : Nat) (msg : List Char)
deriving DecidableEq, Repr

structure SearchOutcome where
  fallbackInvoked : Bool
  resp : SearchResp
deriving DecidableEq, Repr

/-- The fallback arm: Google scrape, 502 when that fetch fails too.
`gResp = none` models a transport error or non-success status from Google. -/
def searchFallback (gResp : Option (List Char)) : SearchOutcome :=
  match gResp with
  | none =>
    { fallbackInvoked := true,
      resp := .err 502 (("Search failed. Please try again.").data) }
  | some html =>
    { fallbackInvoked := true, resp := .ok 200 (googleSearchDailymotion html 12) }

/-- The search route's `GET`: 400 on a missing/blank `q`; otherwise the
primary API search (`apiResp = none` models a thrown `DM API <status>`
error, `some dataList` a success whose `data.list` is `dataList`), falling
back to the Google scrape when the primary throws or yields zero results. -/
def searchGET (apiResp : Option (Option (List ApiItem))) (gResp : Option (List Char))
    (q : Option (List Char)) : SearchOutcome :=
  match q with
  | none =>
    { fallbackInvoked := false, resp := .err 400 (("Missing search query").data) }
  | some qs =>
    if (jsTrim qs).isEmpty then
      { fallbackInvoked := false, resp := .err 400 (("Missing search query").data) }
    else
      match apiResp with
      | some dataList =>
        let results := dailymotionApiSearch dataList
        if results.length > 0 then { fallbackInvoked := false, resp := .ok 200 results }
        else searchFallback gResp
      | none => searchFallback gResp

/-- Claim C5: when the primary platform search responds successfully with at
least one item, `search` answers 200 with exactly the mapped, order-preserved
item list, and the fallback strategy is not invoked. -/
theorem claim_C5 (gResp : Option (List Char)) (qs : List Char)
    (dataList : Option (List ApiItem)) :
    (jsTrim qs).isEmpty = false →
    dataList.getD [] ≠ [] →
    searchGET (some dataList) gResp (some qs) =
      { fallbackInvoked := false,
        resp := .ok 200 ((dataList.getD []).map mapApiItem) } := by
  intro hq hd
  have hlen : 0 < (dailymotionApiSearch dataList).length := by
    simp only [dailymotionApiSearch, List.length_map]
    exact List.length_pos.mpr hd
  simp [searchGET, hq, dailymotionApiSearch, hlen, hd]

def exApiItem : ApiItem :=
  { title := some (("Vincenzo Ep 1").data),
    url := some (("https://www.dailymotion.com/video/x1").data),
    id := ("x1").data, thumb := none, duration := some 3600,
    owner := some (("Chan").data) }

theorem claim_C5_witness :
    searchGET (some (some [exApiItem])) none (some (("Vincenzo").data)) =
      { fallbackInvoked := false,
        resp := .ok 200 (((some [exApiItem] : Option (List ApiItem)).getD []).map mapApiItem) } :=
  claim_C5 none (("Vincenzo").data) (some [exApiItem]) (by decide) (by decide)


/-! ## Claim C6: shape of the fallback's results -/

/-- The platform's watch-URL pattern
`https?://(www\.)?dailymotion\.com/video/[a-zA-Z0-9]+` as a whole-string
predicate. -/
def isWatchUrl (s : List Char) : Bool :=
  if ("http".data).isPrefixOf s then
    let s1 := s.drop 4
    let s2 :=
      match s1 with
      | 's' :: r => r
      | _ => s1
    if ("://".data).isPrefixOf s2 then
      let s3 := s2.drop 3
      let s4 := if ("www.".data).isPrefixOf s3 then s3.drop 4 else s3
      if ("dailymotion.com/video/".data).isPrefixOf s4 then
        let idp := s4.drop 22
        !idp.isEmpty && idp.all charAlnum
      else false
    else false
  else false

theorem isWatchUrl_app (sPart wPart idPart : List Char)
    (hs : sPart = [] ∨ sPart = ['s'])
    (hw : wPart = [] ∨ wPart = ("www.").data)
    (hid : idPart.isEmpty = false) (hall : idPart.all charAlnum = true) :
    isWatchUrl (("http".data) ++ sPart ++ ("://".data) ++ wPart ++
      ("dailymotion.com/video/".data) ++ idPart) = true := by
  rcases hs with hs | hs <;> rcases hw with hw | hw <;> subst hs <;> subst hw
  · have h : ("http".data) ++ ([] : List Char) ++ ("://".data) ++ ([] : List Char) ++
        ("dailymotion.com/video/".data) ++ idPart =
        'h' :: 't' :: 't' :: 'p' :: ':' :: '/' :: '/' :: 'd' :: 'a' :: 'i' :: 'l' :: 'y' :: 'm' :: 'o' :: 't' :: 'i' :: 'o' :: 'n' :: '.' :: 'c' :: 'o' :: 'm' :: '/' :: 'v' :: 'i' :: 'd' :: 'e' :: 'o' :: '/' :: idPart := rfl
    rw [h]
    simp [isWatchUrl, List.isPrefixOf, hid, hall]
  · have h : ("http".data) ++ ([] : List Char) ++ ("://".data) ++ (("www.").data) ++
        ("dailymotion.com/video/".data) ++ idPart =
        'h' :: 't' :: 't' :: 'p' :: ':' :: '/' :: '/' :: 'w' :: 'w' :: 'w' :: '.' :: 'd' :: 'a' :: 'i' :: 'l' :: 'y' :: 'm' :: 'o' :: 't' :: 'i' :: 'o' :: 'n' :: '.' :: 'c' :: 'o' :: 'm' :: '/' :: 'v' :: 'i' :: 'd' :: 'e' :: 'o' :: '/' :: idPart := rfl
    rw [h]
    simp [isWatchUrl, List.isPrefixOf, hid, hall]
  · have h : ("http".data) ++ (['s'] : List Char) ++ ("://".data) ++ ([] : List Char) ++
        ("dailymotion.com/video/".data) ++ idPart =
        'h' :: 't' :: 't' :: 'p' :: 's' :: ':' :: '/' :: '/' :: 'd' :: 'a' :: 'i' :: 'l' :: 'y' :: 'm' :: 'o' :: 't' :: 'i' :: 'o' :: 'n' :: '.' :: 'c' :: 'o' :: 'm' :: '/' :: 'v' :: 'i' :: 'd' :: 'e' :: 'o' :: '/' :: idPart := rfl
    rw [h]
    simp [isWatchUrl, List.isPrefixOf, hid, hall]
  · have h : ("http".data) ++ (['s'] : List Char) ++ ("://".data) ++ (("www.").data) ++
        ("dailymotion.com/video/".data) ++ idPart =
        'h' :: 't' :: 't' :: 'p' :: 's' :: ':' :: '/' :: '/' :: 'w' :: 'w' :: 'w' :: '.' :: 'd' :: 'a' :: 'i' :: 'l' :: 'y' :: 'm' :: 'o' :: 't' :: 'i' :: 'o' :: 'n' :: '.' :: 'c' :: 'o' :: 'm' :: '/' :: 'v' :: 'i' :: 'd' :: 'e' :: 'o' :: '/' :: idPart := rfl
    rw [h]
    simp [isWatchUrl, List.isPrefixOf, hid, hall]

theorem watchCore_isWatch (cs grp rest : List Char) :
    watchCore cs = some (grp, rest) → isWatchUrl grp = true := by
  intro h
  unfold watchCore at h
  split at h
  case isFalse => exact absurd h (by simp)
  dsimp only at h
  repeat' split at h
  all_goals try exact Option.noConfusion h
  all_goals rw [Option.some.injEq, Prod.mk.injEq] at h
  all_goals
    obtain ⟨h1, h2⟩ := h
    subst h1
  all_goals
    refine isWatchUrl_app _ _ _ ?_ ?_ (by simp_all) List.all_takeWhile
  all_goals first
    | exact Or.inl rfl
    | exact Or.inr rfl

theorem urlqAt_isWatch (cs grp after : List Char) :
    urlqAt cs = some (grp, after) → isWatchUrl grp = true := by
  intro h
  unfold urlqAt at h
  split at h
  case isFalse => exact Option.noConfusion h
  dsimp only at h
  split at h
  case h_2 => exact Option.noConfusion h
  rw [Option.some.injEq, Prod.mk.injEq] at h
  obtain ⟨h1, h2⟩ := h
  subst h1
  exact watchCore_isWatch _ _ _ (by assumption)

theorem googleLoopF_inv (html : List Char) :
    ∀ fuel cs pos seen acc,
      (∀ c ∈ acc, isWatchUrl c.url = true ∧ 3 ≤ c.title.length) →
      (∀ c ∈ acc, c.url ∈ seen) →
      (acc.map (fun c => c.url)).Nodup →
      acc.length < 12 →
      ((∀ c ∈ googleLoopF html 12 fuel cs pos seen acc,
          isWatchUrl c.url = true ∧ 3 ≤ c.title.length) ∧
       ((googleLoopF html 12 fuel cs pos seen acc).map (fun c => c.url)).Nodup ∧
       (googleLoopF html 12 fuel cs pos seen acc).length ≤ 12) := by
  intro fuel
  induction fuel with
  | zero =>
    intro cs pos seen acc h1 h2 h3 h4
    simp only [googleLoopF]
    refine ⟨?_, ?_, ?_⟩
    · intro c hc
      exact h1 c (List.mem_reverse.mp hc)
    · simpa [List.map_reverse, List.nodup_reverse] using h3
    · simp only [List.length_reverse]
      omega
  | succ fuel ih =>
    intro cs pos seen acc h1 h2 h3 h4
    cases cs with
    | nil =>
      simp only [googleLoopF]
      refine ⟨?_, ?_, ?_⟩
      · intro c hc
        exact h1 c (List.mem_reverse.mp hc)
      · simpa [List.map_reverse, List.nodup_reverse] using h3
      · simp only [List.length_reverse]
        omega
    | cons c0 rest =>
      simp only [googleLoopF]
      cases hq : urlqAt (c0 :: rest) with
      | none => exact ih rest (pos + 1) seen acc h1 h2 h3 h4
      | some pr =>
        obtain ⟨grp, after⟩ := pr
        dsimp only [decodeURIComponentPctFree]
        by_cases hseen : (seen.contains grp) = true
        · rw [if_pos hseen]
          exact ih after _ seen acc h1 h2 h3 h4
        · rw [if_neg hseen]
          have hwatch : isWatchUrl grp = true := urlqAt_isWatch _ _ _ hq
          have hnotmem : grp ∉ List.map (fun c => c.url) acc := by
            intro hmem
            rcases List.mem_map.mp hmem with ⟨c, hc, hcu⟩
            exact hseen (by simpa using hcu ▸ h2 c hc)
          split
          · exact ih after _ _ acc h1
              (fun c hc => List.mem_cons_of_mem grp (h2 c hc)) h3 h4
          · rename_i hlen3
            split
            · refine ⟨?_, ?_, ?_⟩
              · intro c hc
                rcases List.mem_cons.mp (List.mem_reverse.mp hc) with hc1 | hc2
                · subst hc1
                  refine ⟨hwatch, ?_⟩
                  dsimp only
                  omega
                · exact h1 c hc2
              · simp only [List.map_reverse, List.nodup_reverse, List.map_cons]
                exact List.Nodup.cons hnotmem h3
              · simp only [List.length_reverse, List.length_cons]
                omega
            · refine ih after _ _ _ ?_ ?_ ?_ ?_
              · intro c hc
                rcases List.mem_cons.mp hc with hc1 | hc2
                · subst hc1
                  refine ⟨hwatch, ?_⟩
                  dsimp only
                  omega
                · exact h1 c hc2
              · intro c hc
                rcases List.mem_cons.mp hc with hc1 | hc2
                · subst hc1
                  exact List.mem_cons_self _ _
                · exact List.mem_cons_of_mem grp (h2 c hc2)
              · simp only [List.map_cons]
                exact List.Nodup.cons hnotmem h3
              · rename_i hgo
                simp only [List.length_cons] at hgo ⊢
                omega

/-- Claim C6: every candidate the fallback scraper returns has a URL matching
the platform's watch-URL pattern and a title of length ≥ 3; no two returned
candidates share a URL; and at most the result limit of 12 candidates are
returned. -/
theorem claim_C6 (html : List Char) :
    (∀ c ∈ googleSearchDailymotion html 12,
      isWatchUrl c.url = true ∧ 3 ≤ c.title.length) ∧
    ((googleSearchDailymotion html 12).map (fun c => c.url)).Nodup ∧
    (googleSearchDailymotion html 12).length ≤ 12 :=
  googleLoopF_inv html (html.length + 1) html 0 [] []
    (by intro c hc; exact absurd hc (List.not_mem_nil c))
    (by intro c hc; exact absurd hc (List.not_mem_nil c))
    List.nodup_nil (by simp)

/-- A small Google result page holding one watch-URL link and a heading. -/
def exHtml : List Char :=
  ("<div><h3>Some Drama</h3><a href=\"/url?q=https://www.dailymotion.com/video/x7ab&amp;sa=U\">x</a></div>").data

theorem claim_C6_witness :
    isWatchUrl (("https://www.dailymotion.com/video/x7ab").data) = true ∧
    3 ≤ (("Some Drama").data).length := by
  have h := (claim_C6 exHtml).1
    (SearchResult.mk (("Some Drama").data)
      (("https://www.dailymotion.com/video/x7ab").data) none none none)
    (by decide)
  exact ⟨h.1, h.2⟩
